import Mathlib

/-!
Verification of the dsforty scanner driver (src/dsforty.py) against its
natural-language specification.

The driver talks to an Epson DS-40 sheet-fed scanner over bulk USB.  We embed
the protocol-relevant parts of the Python source shallowly:

* byte strings become `List Nat` (one `Nat` per byte);
* the USB channel becomes an explicit list of read results, consumed in order;
* the stateful scan loop of `DSForty.run_scan` becomes a fuel-indexed
  recursive function over the channel (`scanLoop`); the fuel is always
  instantiated with `channel.length + 1`, which suffices because every loop
  iteration consumes at least one read;
* fallible operations (`int(...)` parses, reads from an exhausted channel)
  return `Option`.
-/

/-- Byte strings (Python `bytes`) are lists of natural numbers, one per byte. -/
abbrev ByteStr := List Nat

/-- The bytes of an ASCII string literal, as Python `b'...'` literals. -/
def strBytes (s : String) : ByteStr :=
  s.toList.map Char.toNat

/-- Python `bytes.startswith`: `p` is an initial segment of `l`. -/
def bytesStartWith : ByteStr → ByteStr → Bool
  | [], _ => true
  | _ :: _, [] => false
  | a :: p, b :: l => a == b && bytesStartWith p l

/-- Python `bytes.find`: index of the first occurrence of `pat` in `l`,
`none` when absent (Python returns `-1`). -/
def findSub (pat : ByteStr) : ByteStr → Option Nat
  | [] => if pat.isEmpty then some 0 else none
  | b :: rest =>
    if bytesStartWith pat (b :: rest) then some 0
    else (findSub pat rest).map (fun i => i + 1)

/-- Python `pat in l` for bytes. -/
def containsSub (pat : ByteStr) (l : ByteStr) : Bool :=
  (findSub pat l).isSome

/-- Python slice `l[a:b]`. -/
def byteSlice (l : ByteStr) (a b : Nat) : ByteStr :=
  (l.drop a).take (b - a)

/-- Value of an ASCII hexadecimal digit byte. -/
def hexVal (b : Nat) : Option Nat :=
  if 48 ≤ b ∧ b ≤ 57 then some (b - 48)
  else if 65 ≤ b ∧ b ≤ 70 then some (b - 55)
  else if 97 ≤ b ∧ b ≤ 102 then some (b - 87)
  else none

/-- Value of an ASCII decimal digit byte. -/
def decVal (b : Nat) : Option Nat :=
  if 48 ≤ b ∧ b ≤ 57 then some (b - 48) else none

def parseHexAcc : ByteStr → Nat → Option Nat
  | [], acc => some acc
  | b :: r, acc =>
    match hexVal b with
    | none => none
    | some v => parseHexAcc r (16 * acc + v)

/-- Python `int(l, 16)` restricted to plain hexadecimal digit strings
(the protocol replies carry exactly such digits). -/
def parseHex (l : ByteStr) : Option Nat :=
  if l.isEmpty then none else parseHexAcc l 0

def parseDecAcc : ByteStr → Nat → Option Nat
  | [], acc => some acc
  | b :: r, acc =>
    match decVal b with
    | none => none
    | some v => parseDecAcc r (10 * acc + v)

/-- Python `int(l)` restricted to plain decimal digit strings. -/
def parseDec (l : ByteStr) : Option Nat :=
  if l.isEmpty then none else parseDecAcc l 0

/-! ## Protocol constants (src/dsforty.py lines 15-23 and command literals) -/

/-- The read-buffer size `IN_BUF_SIZE = 1024 ** 2` (line 15). -/
def inBufSize : Nat := 1048576

/-- Expected image-data ack prefix `b'IMG x'` (line 117). -/
def imgAck : ByteStr := strBytes "IMG x"

/-- End-of-page / no-paper marker `b'#errADF PE'` (lines 106, 120). -/
def errADF : ByteStr := strBytes "#errADF PE"

/-- Height marker `b'#peni'` (line 122). -/
def peni : ByteStr := strBytes "#peni"

/-- Control-mode entry command `b'\x1c\x58'` (line 71). -/
def ctrlCmd : ByteStr := [28, 88]

/-- Expected ACK reply `b'\x06'` (line 72). -/
def ackReply : ByteStr := [6]

/-- The abort/finish command `"FIN x0000000"` named by the specification.
It appears nowhere in src/dsforty.py; we define it only to state that fact. -/
def finCmd : ByteStr := strBytes "FIN x0000000"

/-! ## The scan loop of `DSForty.run_scan` (src/dsforty.py lines 113-137)

The USB channel is modelled as the list of byte strings successive `read()`
calls return.  Reading from an exhausted list models a blocked/failed
transfer and aborts with `outOfInput`. -/

/-- Outcome of the scan loop, including the two `exit(1)` paths of the code
(`badAck` for a reply not starting with `b'IMG x'`, `missingHeight` when the
page ended without a `#peni` height) and the failure modes of the embedding
(`parseError` for a Python `ValueError` in `int(...)`, `outOfInput` when the
channel has no further reads). -/
inductive ScanOutcome where
  | finished (buf : ByteStr) (height : Nat)
  | missingHeight
  | badAck
  | parseError
  | outOfInput
  deriving DecidableEq

/-- The inner payload loop (lines 126-129): `while dl > 0: d = read();
dl -= len(d); tmpout.write(d)`.  Every read is consumed whole, even when it
overshoots `dl` (Python lets `dl` go negative); `Nat` truncated subtraction
models exactly that exit condition. -/
def readChunk : List ByteStr → Nat → Option (ByteStr × List ByteStr)
  | chan, 0 => some ([], chan)
  | [], Nat.succ _ => none
  | d :: rest, Nat.succ k =>
    match readChunk rest (Nat.succ k - d.length) with
    | none => none
    | some (b, c) => some (d ++ b, c)

/-- Lines 122-124: `pen_idx = ret.find(b'#peni'); if pen_idx >= 0:
final_height = int(ret[pen_idx+13:pen_idx+20])`.  Returns the new value of
`final_height`, or `none` when the `int(...)` parse would raise. -/
def heightUpdate (ret : ByteStr) (fh : Option Nat) : Option (Option Nat) :=
  match findSub peni ret with
  | none => some fh
  | some i => (parseDec (byteSlice ret (i + 13) (i + 20))).map Option.some

/-- The scan loop of lines 113-129 followed by the missing-height check of
lines 135-137, over the list of pending channel reads.  `fuel` bounds the
number of iterations; `runScan` supplies enough for any channel. -/
def scanLoop : Nat → List ByteStr → ByteStr → Option Nat → ScanOutcome
  | 0, _, _, _ => ScanOutcome.outOfInput
  | Nat.succ fuel, chan, buf, fh =>
    match chan with
    | [] => ScanOutcome.outOfInput
    | ret :: rest =>
      if bytesStartWith imgAck ret then
        if containsSub errADF ret then
          match fh with
          | some h => ScanOutcome.finished buf h
          | none => ScanOutcome.missingHeight
        else
          match heightUpdate ret fh with
          | none => ScanOutcome.parseError
          | some fh2 =>
            match parseHex (byteSlice ret 5 12) with
            | none => ScanOutcome.parseError
            | some dl =>
              match readChunk rest dl with
              | none => ScanOutcome.outOfInput
              | some (d, rest2) => scanLoop fuel rest2 (buf ++ d) fh2
      else ScanOutcome.badAck

/-- The scan loop started as `run_scan` starts it: empty buffer, no height
recorded.  Each iteration consumes at least the reply read, so
`chan.length + 1` fuel never runs out before the channel does. -/
def runScan (chan : List ByteStr) : ScanOutcome :=
  scanLoop (chan.length + 1) chan [] none

/-! ## Structured reply sequences for the engine claims -/

/-- One image chunk exchange: the `IMG` reply and the payload reads that
follow it on the channel. -/
structure ImgChunk where
  reply : ByteStr
  payload : List ByteStr
  deriving DecidableEq

def sumLens : List ByteStr → Nat
  | [] => 0
  | d :: ds => d.length + sumLens ds

def bytesJoin : List ByteStr → ByteStr
  | [] => []
  | d :: ds => d ++ bytesJoin ds

/-- The channel contents generated by a sequence of chunk exchanges followed
by an end-of-page reply and arbitrary further reads. -/
def chanOf : List ImgChunk → ByteStr → List ByteStr → List ByteStr
  | [], fin, rest => fin :: rest
  | c :: cs, fin, rest => c.reply :: (c.payload ++ chanOf cs fin rest)

/-- A well-formed chunk exchange, as the claims hypothesise it: the reply
starts with `IMG x`, does not end the page, declares at offset [5,12) in hex
exactly the number of payload bytes that follow, every payload read is
non-empty, and any `#peni` marker carries a parsable height. -/
structure WfChunk (c : ImgChunk) : Prop where
  ack : bytesStartWith imgAck c.reply = true
  noErr : containsSub errADF c.reply = false
  decl : parseHex (byteSlice c.reply 5 12) = some (sumLens c.payload)
  nonempty : ∀ d ∈ c.payload, d ≠ []
  hOk : (heightUpdate c.reply none).isSome = true

/-- The height carried by one reply, if any: the 7 bytes at offsets
+13..+20 after the first `#peni` marker, parsed as decimal. -/
def replyHeight (ret : ByteStr) : Option Nat :=
  (findSub peni ret).bind fun i => parseDec (byteSlice ret (i + 13) (i + 20))

/-- How one reply updates the recorded final height. -/
def heightStep (fh : Option Nat) (ret : ByteStr) : Option Nat :=
  match replyHeight ret with
  | some h => some h
  | none => fh

/-- The final height recorded after a sequence of chunk replies: the last
parsed `#peni` marker wins. -/
def lastHeightFrom (fh : Option Nat) (cs : List ImgChunk) : Option Nat :=
  cs.foldl (fun acc c => heightStep acc c.reply) fh

/-- All payload bytes of a chunk sequence, in order. -/
def joinPayloads (cs : List ImgChunk) : ByteStr :=
  bytesJoin (cs.map fun c => bytesJoin c.payload)

/-- The chunk length a reply declares (hex digits at byte offset [5,12)). -/
def declaredLen (c : ImgChunk) : Nat :=
  (parseHex (byteSlice c.reply 5 12)).getD 0

def sumDeclared (cs : List ImgChunk) : Nat :=
  (cs.map declaredLen).sum

/-! ## Lemmas about the scan loop -/

lemma readChunk_mem :
    ∀ (chan : List ByteStr) (dl : Nat) (b : ByteStr) (c : List ByteStr),
      readChunk chan dl = some (b, c) → ∀ r ∈ c, r ∈ chan := by
  intro chan
  induction chan with
  | nil =>
    intro dl b c h r hr
    cases dl with
    | zero =>
      simp only [readChunk, Option.some.injEq, Prod.mk.injEq] at h
      rcases h with ⟨-, h2⟩
      rw [← h2] at hr
      simp at hr
    | succ k => simp [readChunk] at h
  | cons d rest ih =>
    intro dl b c h r hr
    cases dl with
    | zero =>
      simp only [readChunk, Option.some.injEq, Prod.mk.injEq] at h
      rcases h with ⟨-, h2⟩
      rw [← h2] at hr
      exact hr
    | succ k =>
      simp only [readChunk] at h
      cases hrc : readChunk rest (Nat.succ k - d.length) with
      | none => rw [hrc] at h; simp at h
      | some bc =>
        rw [hrc] at h
        cases bc with
        | mk b2 c2 =>
          simp only [Option.some.injEq, Prod.mk.injEq] at h
          rcases h with ⟨-, h2⟩
          rw [← h2] at hr
          exact List.mem_cons_of_mem d (ih _ _ _ hrc r hr)

lemma readChunk_exact :
    ∀ (p rest : List ByteStr), (∀ d ∈ p, d ≠ []) →
      readChunk (p ++ rest) (sumLens p) = some (bytesJoin p, rest) := by
  intro p
  induction p with
  | nil => intro rest _; simp [sumLens, bytesJoin, readChunk]
  | cons d p ih =>
    intro rest h
    cases d with
    | nil => exact absurd rfl (h [] (by simp))
    | cons a as =>
      have hsum : sumLens ((a :: as) :: p) = Nat.succ (as.length + sumLens p) := by
        simp [sumLens]
        omega
      rw [hsum]
      simp only [List.cons_append, readChunk]
      have harith : Nat.succ (as.length + sumLens p) - (a :: as).length = sumLens p := by
        simp
      rw [harith, List.append_eq, ih rest (fun x hx => h x (by simp [hx]))]
      simp [bytesJoin]

lemma heightUpdate_eq_heightStep (ret : ByteStr) (fh : Option Nat)
    (h : (heightUpdate ret none).isSome = true) :
    heightUpdate ret fh = some (heightStep fh ret) := by
  cases hf : findSub peni ret with
  | none => simp [heightUpdate, heightStep, replyHeight, hf]
  | some i =>
    cases hp : parseDec (byteSlice ret (i + 13) (i + 20)) with
    | none => simp [heightUpdate, hf, hp] at h
    | some v => simp [heightUpdate, heightStep, replyHeight, hf, hp]

lemma scanLoop_run :
    ∀ (cs : List ImgChunk) (fuel : Nat) (buf : ByteStr) (fh : Option Nat)
      (fin : ByteStr) (rest : List ByteStr),
      (∀ c ∈ cs, WfChunk c) →
      bytesStartWith imgAck fin = true →
      containsSub errADF fin = true →
      cs.length < fuel →
      scanLoop fuel (chanOf cs fin rest) buf fh =
        (match lastHeightFrom fh cs with
         | some h => ScanOutcome.finished (buf ++ joinPayloads cs) h
         | none => ScanOutcome.missingHeight) := by
  intro cs
  induction cs with
  | nil =>
    intro fuel buf fh fin rest _ hfa hfe hfuel
    cases fuel with
    | zero => omega
    | succ f =>
      simp only [chanOf, scanLoop, hfa, hfe, if_true]
      cases fh <;> simp [lastHeightFrom, joinPayloads, bytesJoin]
  | cons c cs ih =>
    intro fuel buf fh fin rest hwf hfa hfe hfuel
    cases fuel with
    | zero => simp at hfuel
    | succ f =>
      have wc : WfChunk c := hwf c (by simp)
      have hwf2 : ∀ x ∈ cs, WfChunk x := fun x hx => hwf x (by simp [hx])
      simp only [chanOf, scanLoop, wc.ack, wc.noErr, if_true, if_false,
        Bool.false_eq_true]
      simp only [heightUpdate_eq_heightStep c.reply fh wc.hOk, wc.decl,
        readChunk_exact c.payload (chanOf cs fin rest) wc.nonempty]
      rw [ih f (buf ++ bytesJoin c.payload) (heightStep fh c.reply) fin rest
        hwf2 hfa hfe (by simp at hfuel; omega)]
      have h1 : lastHeightFrom fh (c :: cs) =
          lastHeightFrom (heightStep fh c.reply) cs := rfl
      rw [h1]
      cases lastHeightFrom (heightStep fh c.reply) cs with
      | none => rfl
      | some h => simp [joinPayloads, bytesJoin, List.append_assoc]

lemma length_le_chanOf :
    ∀ (cs : List ImgChunk) (fin : ByteStr) (rest : List ByteStr),
      cs.length < (chanOf cs fin rest).length + 1 := by
  intro cs fin rest
  induction cs with
  | nil => simp [chanOf]
  | cons c cs ih =>
    simp only [chanOf, List.length_cons, List.length_append] at ih ⊢
    omega

lemma bytesJoin_length : ∀ (l : List ByteStr), (bytesJoin l).length = sumLens l := by
  intro l
  induction l with
  | nil => rfl
  | cons d ds ih => simp [bytesJoin, sumLens, ih]

lemma joinPayloads_length (cs : List ImgChunk) (hwf : ∀ c ∈ cs, WfChunk c) :
    (joinPayloads cs).length = sumDeclared cs := by
  induction cs with
  | nil => rfl
  | cons c cs ih =>
    have wc : WfChunk c := hwf c (by simp)
    have hdecl : declaredLen c = sumLens c.payload := by
      simp [declaredLen, wc.decl]
    simp only [joinPayloads, sumDeclared, List.map_cons, bytesJoin,
      List.length_append, List.sum_cons, bytesJoin_length, hdecl]
    have := ih (fun x hx => hwf x (by simp [hx]))
    simp only [joinPayloads, sumDeclared, bytesJoin_length] at this
    omega

/-- C1: for a reply sequence in which every `IMG` reply starts with
`"IMG x"`, declares as hex digits at byte offset [5,12) exactly the number of
payload bytes that follow it on the channel, and is eventually followed by a
reply containing `"#errADF PE"`, the scan loop of `DSForty.run_scan`
(src/dsforty.py lines 113-129) finishes with an output buffer that is the
concatenation of all payloads — whose length is the sum of the declared
chunk lengths — and with `final_height` equal to the 7-digit decimal number
parsed at offsets +13..+20 after the last `"#peni"` marker seen. -/
theorem C1_engine_buffer_and_height (cs : List ImgChunk) (fin : ByteStr)
    (rest : List ByteStr) (H : Nat)
    (hwf : ∀ c ∈ cs, WfChunk c)
    (hfa : bytesStartWith imgAck fin = true)
    (hfe : containsSub errADF fin = true)
    (hH : lastHeightFrom none cs = some H) :
    runScan (chanOf cs fin rest) = ScanOutcome.finished (joinPayloads cs) H ∧
    (joinPayloads cs).length = sumDeclared cs := by
  constructor
  · unfold runScan
    rw [scanLoop_run cs _ [] none fin rest hwf hfa hfe
      (length_le_chanOf cs fin rest), hH]
    simp
  · exact joinPayloads_length cs hwf

/-- A concrete chunk exchange: declared length 2, two payload bytes, and a
height marker carrying 0001234. -/
def chunkEx : ImgChunk := ⟨strBytes "IMG x0000002#peniABCDEFGH0001234", [[171, 205]]⟩

/-- A concrete end-of-page reply. -/
def finEx : ByteStr := strBytes "IMG x#errADF PE"

def chanEx : List ByteStr := chanOf [chunkEx] finEx []

theorem C1_engine_buffer_and_height_witness :
    runScan chanEx = ScanOutcome.finished [171, 205] 1234 ∧
    ([171, 205] : ByteStr).length = sumDeclared [chunkEx] :=
  C1_engine_buffer_and_height [chunkEx] finEx [] 1234
    (by
      intro c hc
      simp only [List.mem_singleton] at hc
      subst hc
      exact ⟨by decide, by decide, by decide, by decide, by decide⟩)
    (by decide) (by decide) (by decide)

/-! ## C2: no `#peni` marker means `MissingHeight`, never `Finished` -/

lemma lastHeightFrom_none :
    ∀ (cs : List ImgChunk), (∀ c ∈ cs, findSub peni c.reply = none) →
      lastHeightFrom none cs = none := by
  intro cs
  induction cs with
  | nil => intro _; rfl
  | cons c cs ih =>
    intro h
    have hc := h c (by simp)
    have hstep : heightStep none c.reply = none := by
      simp [heightStep, replyHeight, hc]
    simp only [lastHeightFrom, List.foldl_cons, hstep]
    exact ih (fun x hx => h x (by simp [hx]))

lemma scanLoop_no_peni :
    ∀ (fuel : Nat) (chan : List ByteStr) (buf : ByteStr),
      (∀ r ∈ chan, findSub peni r = none) →
      ∀ b h, scanLoop fuel chan buf none ≠ ScanOutcome.finished b h := by
  intro fuel
  induction fuel with
  | zero => intro chan buf _ b h; simp [scanLoop]
  | succ f ih =>
    intro chan buf hch b h
    cases chan with
    | nil => simp [scanLoop]
    | cons ret rest =>
      have hret : findSub peni ret = none := hch ret (by simp)
      have hrest : ∀ r ∈ rest, findSub peni r = none :=
        fun r hr => hch r (by simp [hr])
      have hup : heightUpdate ret none = some none := by
        simp [heightUpdate, hret]
      cases ha : bytesStartWith imgAck ret with
      | false => simp [scanLoop, ha]
      | true =>
        cases he : containsSub errADF ret with
        | true => simp [scanLoop, ha, he]
        | false =>
          simp only [scanLoop, ha, he, hup, if_true, if_false,
            Bool.false_eq_true]
          cases hp : parseHex (byteSlice ret 5 12) with
          | none => simp
          | some dl =>
            cases hrc : readChunk rest dl with
            | none => simp [hrc]
            | some dc =>
              cases dc with
              | mk d rest2 =>
                simp only [hrc]
                exact ih rest2 (buf ++ d)
                  (fun r hr => hrest r (readChunk_mem rest dl d rest2 hrc r hr)) b h

/-- C2: if no `IMG` reply ever contains the `"#peni"` height marker, the scan
loop of `DSForty.run_scan` takes the `final_height is None` exit (lines
135-137), and — for any channel whatsoever without a `"#peni"` byte sequence
in its reads — it can never produce the `finished` outcome that would return
the raw JPEG buffer and final height and proceed to crop/save. -/
theorem C2_missing_height (cs : List ImgChunk) (fin : ByteStr)
    (rest : List ByteStr)
    (hwf : ∀ c ∈ cs, WfChunk c)
    (hfa : bytesStartWith imgAck fin = true)
    (hfe : containsSub errADF fin = true)
    (hnp : ∀ c ∈ cs, findSub peni c.reply = none) :
    runScan (chanOf cs fin rest) = ScanOutcome.missingHeight ∧
    ∀ (chan2 : List ByteStr), (∀ r ∈ chan2, findSub peni r = none) →
      ∀ b h, runScan chan2 ≠ ScanOutcome.finished b h := by
  constructor
  · unfold runScan
    rw [scanLoop_run cs _ [] none fin rest hwf hfa hfe
      (length_le_chanOf cs fin rest), lastHeightFrom_none cs hnp]
  · intro chan2 h2 b h
    exact scanLoop_no_peni _ chan2 [] h2 b h

/-- A concrete chunk exchange with no `#peni` marker. -/
def chunkNoPeni : ImgChunk := ⟨strBytes "IMG x0000001", [[7]]⟩

theorem C2_missing_height_witness :
    runScan (chanOf [chunkNoPeni] finEx []) = ScanOutcome.missingHeight :=
  (C2_missing_height [chunkNoPeni] finEx []
    (by
      intro c hc
      simp only [List.mem_singleton] at hc
      subst hc
      exact ⟨by decide, by decide, by decide, by decide, by decide⟩)
    (by decide) (by decide)
    (by
      intro c hc
      simp only [List.mem_singleton] at hc
      subst hc
      decide)).1

/-! ## Fixed-width ASCII numeric fields (Python `%03d`, `%07d`, `%07X`) -/

/-- Decimal digit bytes of `n`, most significant first (`fuel > n`). -/
def decReprAux : Nat → Nat → ByteStr
  | 0, _ => []
  | Nat.succ fuel, n =>
    if n < 10 then [48 + n]
    else decReprAux fuel (n / 10) ++ [48 + n % 10]

/-- Decimal ASCII representation of `n`, as Python `b'%d' % n`. -/
def decRepr (n : Nat) : ByteStr := decReprAux (n + 1) n

/-- Python `b'%0wd' % n`: zero-padded to width `w`, longer when `n` needs
more digits. -/
def padDec (w n : Nat) : ByteStr :=
  List.replicate (w - (decRepr n).length) 48 ++ decRepr n

/-- ASCII code of an uppercase hexadecimal digit. -/
def hexDigitChar (d : Nat) : Nat := if d < 10 then 48 + d else 55 + d

/-- Uppercase hex digit bytes of `n`, most significant first (`fuel > n`). -/
def hexReprAux : Nat → Nat → ByteStr
  | 0, _ => []
  | Nat.succ fuel, n =>
    if n < 16 then [hexDigitChar n]
    else hexReprAux fuel (n / 16) ++ [hexDigitChar (n % 16)]

/-- Uppercase hex ASCII representation of `n`, as Python `b'%X' % n`. -/
def hexRepr (n : Nat) : ByteStr := hexReprAux (n + 1) n

/-- Python `b'%0wX' % n`. -/
def padHex (w n : Nat) : ByteStr :=
  List.replicate (w - (hexRepr n).length) 48 ++ hexRepr n

def isDecDigit (b : Nat) : Bool := decide (48 ≤ b ∧ b ≤ 57)

def allDecDigits (l : ByteStr) : Bool := l.all isDecDigit

/-! ## The control-mode handshake of `DSForty.setup_scanner`
(src/dsforty.py lines 66-77)

Each loop iteration writes `b'\x1c\x58'` and reads once; the whole attempt
may raise `usb.USBError`, which the `except` clause swallows before
retrying.  We model the channel as the list of per-attempt results: either a
successfully received reply or a transport error. -/

/-- Result of one write/read attempt on the transport. -/
inductive ReadEv where
  | ok (d : ByteStr)
  | err
  deriving DecidableEq

/-- Outcome of the handshake loop: success or rejection (each remembering
the unconsumed channel and how many times the control-mode command was
written), or a channel that ran out while erroring. -/
inductive HsOut where
  | success (rest : List ReadEv) (attempts : Nat)
  | rejected (rest : List ReadEv) (attempts : Nat)
  | exhausted
  deriving DecidableEq

/-- Lines 68-77: retry on `usb.USBError`; on a successful read, ACK
`b'\x06'` breaks out of the loop and any other reply hits `exit(1)`. -/
def handshake : List ReadEv → HsOut
  | [] => HsOut.exhausted
  | ReadEv.err :: rest =>
    match handshake rest with
    | HsOut.success r a => HsOut.success r (a + 1)
    | HsOut.rejected r a => HsOut.rejected r (a + 1)
    | HsOut.exhausted => HsOut.exhausted
  | ReadEv.ok d :: rest =>
    if d = ackReply then HsOut.success rest 1 else HsOut.rejected rest 1

/-- C4: during the control handshake, a successfully received reply other
than the single byte `0x06` rejects the handshake at once (no retry, channel
untouched past that reply), while transport errors make the loop resend the
control-mode command — one write per error plus the final one. -/
theorem C4_handshake_ack (errs : List ReadEv) (r : ByteStr)
    (rest : List ReadEv) (he : ∀ e ∈ errs, e = ReadEv.err) :
    handshake (errs ++ ReadEv.ok r :: rest) =
      (if r = ackReply then HsOut.success rest (errs.length + 1)
       else HsOut.rejected rest (errs.length + 1)) := by
  induction errs with
  | nil => simp [handshake]
  | cons e errs ih =>
    have hee : e = ReadEv.err := he e (by simp)
    subst hee
    have ih2 := ih (fun x hx => he x (by simp [hx]))
    have hstep : handshake ((ReadEv.err :: errs) ++ ReadEv.ok r :: rest) =
        (match handshake (errs ++ ReadEv.ok r :: rest) with
         | HsOut.success a b => HsOut.success a (b + 1)
         | HsOut.rejected a b => HsOut.rejected a (b + 1)
         | HsOut.exhausted => HsOut.exhausted) := rfl
    rw [hstep, ih2]
    by_cases hr : r = ackReply
    · simp [hr]
    · simp [hr]

theorem C4_handshake_ack_witness :
    handshake [ReadEv.err, ReadEv.ok [21]] = HsOut.rejected [] 2 := by
  have h := C4_handshake_ack [ReadEv.err] [21] [] (by decide)
  simpa using h

/-! ## The setup action trace (src/dsforty.py lines 60-92) -/

/-- Observable device actions of `setup_scanner`: the USB device reset of
line 66, bulk-out writes, and bulk-in reads. -/
inductive DevAction where
  | reset
  | write (d : ByteStr)
  | readAct
  deriving DecidableEq

/-- Actions performed by the handshake loop: one control-mode write and one
read per attempt, stopping at the first successfully received reply. -/
def hsActions : List ReadEv → List DevAction
  | [] => []
  | ReadEv.err :: rest => DevAction.write ctrlCmd :: DevAction.readAct :: hsActions rest
  | ReadEv.ok _ :: _ => [DevAction.write ctrlCmd, DevAction.readAct]

/-- Actions of the parameter exchange (lines 91-93), reached only when the
handshake succeeded with the ACK: write the `PARAx` length header, write the
parameter block, read the reply.  (A rejected handshake calls `exit(1)`
before any further write.) -/
def paramPhase (block : ByteStr) : HsOut → List DevAction
  | HsOut.success _ _ =>
    [DevAction.write (strBytes "PARAx" ++ padHex 7 block.length),
     DevAction.write block, DevAction.readAct]
  | _ => []

/-- The action trace of `setup_scanner` up to the parameter exchange: line
66 resets the device, lines 68-77 run the handshake, then lines 91-93 send
the parameters. -/
def setupActions (block : ByteStr) (chan : List ReadEv) : List DevAction :=
  DevAction.reset :: hsActions chan ++ paramPhase block (handshake chan)

/-! ## Length and digit lemmas for the fixed-width fields -/

lemma decReprAux_len_le :
    ∀ (fuel n k : Nat), n < fuel → n < 10 ^ k → 1 ≤ k →
      (decReprAux fuel n).length ≤ k := by
  intro fuel
  induction fuel with
  | zero => intro n k hn _ _; omega
  | succ f ih =>
    intro n k hn hk hk1
    by_cases h10 : n < 10
    · simp [decReprAux, h10]
      omega
    · have hk2 : 2 ≤ k := by
        by_contra hlt
        have : k = 1 := by omega
        subst this
        simp at hk
        omega
      simp only [decReprAux, h10, if_false]
      rw [List.length_append]
      have hdivf : n / 10 < f := by
        have h1 : n / 10 < n := Nat.div_lt_self (by omega) (by norm_num)
        omega
      have hdivpow : n / 10 < 10 ^ (k - 1) := by
        rw [Nat.div_lt_iff_lt_mul (by norm_num)]
        calc n < 10 ^ k := hk
          _ = 10 ^ (k - 1) * 10 := by
            rw [← pow_succ]
            congr 1
            omega
      have := ih (n / 10) (k - 1) hdivf hdivpow (by omega)
      simp
      omega

lemma decRepr_len_le (n k : Nat) (hk1 : 1 ≤ k) (h : n < 10 ^ k) :
    (decRepr n).length ≤ k :=
  decReprAux_len_le (n + 1) n k (Nat.lt_succ_self n) h hk1

lemma padDec_length (w n : Nat) (hw : 1 ≤ w) (h : n < 10 ^ w) :
    (padDec w n).length = w := by
  have := decRepr_len_le n w hw h
  simp [padDec]
  omega

lemma decReprAux_digits :
    ∀ (fuel n b : Nat), b ∈ decReprAux fuel n → 48 ≤ b ∧ b ≤ 57 := by
  intro fuel
  induction fuel with
  | zero => intro n b hb; simp [decReprAux] at hb
  | succ f ih =>
    intro n b hb
    by_cases h10 : n < 10
    · simp [decReprAux, h10] at hb
      omega
    · simp only [decReprAux, h10, if_false, List.mem_append,
        List.mem_singleton] at hb
      rcases hb with hb | hb
      · exact ih _ _ hb
      · have : n % 10 < 10 := Nat.mod_lt _ (by norm_num)
        omega

lemma allDecDigits_padDec (w n : Nat) : allDecDigits (padDec w n) = true := by
  simp only [allDecDigits, List.all_eq_true, padDec, List.mem_append]
  intro b hb
  rcases hb with h | h
  · have := List.eq_of_mem_replicate h
    simp [isDecDigit]
    omega
  · have := decReprAux_digits _ _ _ h
    simp [isDecDigit]
    omega

lemma hexReprAux_len_le :
    ∀ (fuel n k : Nat), n < fuel → n < 16 ^ k → 1 ≤ k →
      (hexReprAux fuel n).length ≤ k := by
  intro fuel
  induction fuel with
  | zero => intro n k hn _ _; omega
  | succ f ih =>
    intro n k hn hk hk1
    by_cases h16 : n < 16
    · simp [hexReprAux, h16]
      omega
    · have hk2 : 2 ≤ k := by
        by_contra hlt
        have : k = 1 := by omega
        subst this
        simp at hk
        omega
      simp only [hexReprAux, h16, if_false]
      rw [List.length_append]
      have hdivf : n / 16 < f := by
        have h1 : n / 16 < n := Nat.div_lt_self (by omega) (by norm_num)
        omega
      have hdivpow : n / 16 < 16 ^ (k - 1) := by
        rw [Nat.div_lt_iff_lt_mul (by norm_num)]
        calc n < 16 ^ k := hk
          _ = 16 ^ (k - 1) * 16 := by
            rw [← pow_succ]
            congr 1
            omega
      have := ih (n / 16) (k - 1) hdivf hdivpow (by omega)
      simp
      omega

lemma padHex_length (w n : Nat) (hw : 1 ≤ w) (h : n < 16 ^ w) :
    (padHex w n).length = w := by
  have := hexReprAux_len_le (n + 1) n w (Nat.lt_succ_self n) h hw
  simp only [padHex, hexRepr] at *
  simp
  omega

/-! ## The parameter block of `DSForty.setup_scanner`
(src/dsforty.py lines 79-92) -/

/-- The color table of line 23, mapping key g to M008 and key c to C024,
as the dictionary lookup performs it: defined only at those two keys. -/
def CLRS (ch : Char) : Option ByteStr :=
  if ch = 'g' then some (strBytes "M008")
  else if ch = 'c' then some (strBytes "C024")
  else none

/-- Page width `self.width = int(self.args.res * MAX_W)` with `MAX_W = 8.5`
(line 38); `res * 8.5` is exact in floating point, so truncation is
`res * 17 / 2`. -/
def widthOf (res : Nat) : Nat := res * 17 / 2

/-- Page height `self.height = int(self.args.res * MAX_H)`, `MAX_H = 14`
(line 38). -/
def heightOf (res : Nat) : Nat := res * 14

/-- The 256-byte identity gamma table `bytes(range(256))` of line 89. -/
def gammaTable : ByteStr := List.range 256

/-- Lines 87-89: `b'#GMT' + gmt + b' h100'` followed by the identity table. -/
def gammaRecord (tag : String) : ByteStr :=
  strBytes "#GMT" ++ strBytes tag ++ strBytes " h100" ++ gammaTable

/-- The parameter block assembled on lines 79-90, with the quality in a
Python `%03d` field and resolution/geometry/buffer-size in `%07d` fields. -/
def buildParams (col : ByteStr) (q res w h : Nat) : ByteStr :=
  strBytes "#ADF#COL" ++ col ++
  strBytes "#FMTJPG #JPGd" ++ padDec 3 q ++ strBytes "#GMMUG18#CMXUNIT" ++
  strBytes "#RSMi" ++ padDec 7 res ++ strBytes "#RSSi" ++ padDec 7 res ++
  strBytes "#ACQi" ++ padDec 7 0 ++ strBytes "i" ++ padDec 7 0 ++
  strBytes "i" ++ padDec 7 w ++ strBytes "i" ++ padDec 7 h ++
  strBytes "#PAGd000#BSZi" ++ padDec 7 inBufSize ++
  gammaRecord "RED" ++ gammaRecord "GRN" ++ gammaRecord "BLU"

/-- Lines 91-92: the two writes that transmit the block — first the header
`b'PARAx%07X' % len(params)`, then the block itself. -/
def paramWrites (col : ByteStr) (q res w h : Nat) : List ByteStr :=
  [strBytes "PARAx" ++ padHex 7 (buildParams col q res w h).length,
   buildParams col q res w h]

lemma buildParams_length (col : ByteStr) (q res w h : Nat)
    (hcol : col.length = 4) (hq : q < 1000) (hres : res < 10 ^ 7)
    (hw : w < 10 ^ 7) (hh : h < 10 ^ 7) :
    (buildParams col q res w h).length = 928 := by
  have l1 : (padDec 3 q).length = 3 := padDec_length 3 q (by norm_num) (by norm_num; omega)
  have l2 : (padDec 7 res).length = 7 := padDec_length 7 res (by norm_num) hres
  have l3 : (padDec 7 0).length = 7 := padDec_length 7 0 (by norm_num) (by norm_num)
  have l4 : (padDec 7 w).length = 7 := padDec_length 7 w (by norm_num) hw
  have l5 : (padDec 7 h).length = 7 := padDec_length 7 h (by norm_num) hh
  have l6 : (padDec 7 inBufSize).length = 7 :=
    padDec_length 7 inBufSize (by norm_num) (by norm_num [inBufSize])
  have s1 : (strBytes "#ADF#COL").length = 8 := by decide
  have s2 : (strBytes "#FMTJPG #JPGd").length = 13 := by decide
  have s3 : (strBytes "#GMMUG18#CMXUNIT").length = 16 := by decide
  have s4 : (strBytes "#RSMi").length = 5 := by decide
  have s5 : (strBytes "#RSSi").length = 5 := by decide
  have s6 : (strBytes "#ACQi").length = 5 := by decide
  have s7 : (strBytes "i").length = 1 := by decide
  have s8 : (strBytes "#PAGd000#BSZi").length = 13 := by decide
  have sg1 : (strBytes "#GMT").length = 4 := by decide
  have sg2 : (strBytes " h100").length = 5 := by decide
  have sg3 : (strBytes "RED").length = 3 := by decide
  have sg4 : (strBytes "GRN").length = 3 := by decide
  have sg5 : (strBytes "BLU").length = 3 := by decide
  have gtl : gammaTable.length = 256 := by simp [gammaTable]
  have g1 : (gammaRecord "RED").length = 268 := by
    simp [gammaRecord, List.length_append, sg1, sg2, sg3, gtl]
  have g2 : (gammaRecord "GRN").length = 268 := by
    simp [gammaRecord, List.length_append, sg1, sg2, sg4, gtl]
  have g3 : (gammaRecord "BLU").length = 268 := by
    simp [gammaRecord, List.length_append, sg1, sg2, sg5, gtl]
  simp only [buildParams, List.length_append, l1, l2, l3, l4, l5, l6,
    s1, s2, s3, s4, s5, s6, s7, s8, g1, g2, g3, hcol]

/-- C3: for every valid configuration (quality in [1,100], resolution 300 or
600, a 4-byte color token), the parameter block carries quality as a 3-digit
zero-padded decimal ASCII field and resolution and geometry as 7-digit
zero-padded decimal ASCII fields, its total length fits in 7 hex digits, and
it is transmitted as the header write `"PARAx" + %07X length` followed by
the block write. -/
theorem C3_parameter_block (q res : Nat) (col : ByteStr)
    (hq : 1 ≤ q ∧ q ≤ 100) (hres : res = 300 ∨ res = 600)
    (hcol : col = strBytes "M008" ∨ col = strBytes "C024") :
    ((padDec 3 q).length = 3 ∧ allDecDigits (padDec 3 q) = true) ∧
    ((padDec 7 res).length = 7 ∧ allDecDigits (padDec 7 res) = true) ∧
    ((padDec 7 (widthOf res)).length = 7 ∧
      (padDec 7 (heightOf res)).length = 7) ∧
    (∃ pre post, buildParams col q res (widthOf res) (heightOf res) =
      pre ++ (padDec 3 q ++ post)) ∧
    (buildParams col q res (widthOf res) (heightOf res)).length < 16 ^ 7 ∧
    (padHex 7 (buildParams col q res (widthOf res) (heightOf res)).length).length = 7 ∧
    paramWrites col q res (widthOf res) (heightOf res) =
      [strBytes "PARAx" ++
        padHex 7 (buildParams col q res (widthOf res) (heightOf res)).length,
       buildParams col q res (widthOf res) (heightOf res)] := by
  have hcl : col.length = 4 := by
    rcases hcol with h | h <;> subst h <;> decide
  have hq3 : q < 1000 := by omega
  have hres7 : res < 10 ^ 7 := by rcases hres with h | h <;> subst h <;> norm_num
  have hw7 : widthOf res < 10 ^ 7 := by
    rcases hres with h | h <;> subst h <;> decide
  have hh7 : heightOf res < 10 ^ 7 := by
    rcases hres with h | h <;> subst h <;> decide
  have hblen := buildParams_length col q res (widthOf res) (heightOf res)
    hcl hq3 hres7 hw7 hh7
  refine ⟨⟨padDec_length 3 q (by norm_num) (by omega), allDecDigits_padDec 3 q⟩,
    ⟨padDec_length 7 res (by norm_num) hres7, allDecDigits_padDec 7 res⟩,
    ⟨padDec_length 7 _ (by norm_num) hw7, padDec_length 7 _ (by norm_num) hh7⟩,
    ⟨strBytes "#ADF#COL" ++ col ++ strBytes "#FMTJPG #JPGd",
     strBytes "#GMMUG18#CMXUNIT" ++ strBytes "#RSMi" ++ padDec 7 res ++
       strBytes "#RSSi" ++ padDec 7 res ++ strBytes "#ACQi" ++ padDec 7 0 ++
       strBytes "i" ++ padDec 7 0 ++ strBytes "i" ++ padDec 7 (widthOf res) ++
       strBytes "i" ++ padDec 7 (heightOf res) ++ strBytes "#PAGd000#BSZi" ++
       padDec 7 inBufSize ++ gammaRecord "RED" ++ gammaRecord "GRN" ++
       gammaRecord "BLU",
     by simp [buildParams, List.append_assoc]⟩,
    by rw [hblen]; norm_num,
    by rw [hblen]; exact padHex_length 7 928 (by norm_num) (by norm_num),
    rfl⟩

theorem C3_parameter_block_witness :
    ((padDec 3 100).length = 3 ∧ allDecDigits (padDec 3 100) = true) ∧
    ((padDec 7 300).length = 7 ∧ allDecDigits (padDec 7 300) = true) ∧
    ((padDec 7 (widthOf 300)).length = 7 ∧
      (padDec 7 (heightOf 300)).length = 7) ∧
    (∃ pre post, buildParams (strBytes "C024") 100 300 (widthOf 300) (heightOf 300) =
      pre ++ (padDec 3 100 ++ post)) ∧
    (buildParams (strBytes "C024") 100 300 (widthOf 300) (heightOf 300)).length < 16 ^ 7 ∧
    (padHex 7 (buildParams (strBytes "C024") 100 300 (widthOf 300) (heightOf 300)).length).length = 7 ∧
    paramWrites (strBytes "C024") 100 300 (widthOf 300) (heightOf 300) =
      [strBytes "PARAx" ++
        padHex 7 (buildParams (strBytes "C024") 100 300 (widthOf 300) (heightOf 300)).length,
       buildParams (strBytes "C024") 100 300 (widthOf 300) (heightOf 300)] :=
  C3_parameter_block 100 300 (strBytes "C024")
    ⟨by norm_num, by norm_num⟩ (Or.inl rfl) (Or.inr rfl)

/-! ## C5: what `setup_scanner` actually sends before control mode -/

/-- The first byte string written on the channel in an action trace. -/
def firstWrite : List DevAction → Option ByteStr
  | [] => none
  | DevAction.write d :: _ => some d
  | _ :: rest => firstWrite rest

/-- A parameters-accepted reply (line 93 checks for `b'#parOK'`). -/
def parOKreply : ByteStr := strBytes "#parOK"

/-- A channel on which the handshake and the parameter exchange succeed. -/
def chanHs : List ReadEv := [ReadEv.ok ackReply, ReadEv.ok parOKreply]

/-- A concrete parameter block (color, quality 100, 300 dpi). -/
def blockEx : ByteStr := buildParams (strBytes "C024") 100 300 2550 4200

/-- C5 is false of src/dsforty.py: on a concrete successful setup run the
trace starts with a USB device reset, the first byte string written on the
channel is the control-mode command `0x1C 0x58` — not `"FIN x0000000"` —
and `"FIN x0000000"` is never written at all. -/
theorem C5_counterexample :
    (setupActions blockEx chanHs).head? = some DevAction.reset ∧
    firstWrite (setupActions blockEx chanHs) = some ctrlCmd ∧
    DevAction.write finCmd ∉ setupActions blockEx chanHs := by
  decide

lemma hsActions_writes :
    ∀ (chan : List ReadEv) (d : ByteStr),
      DevAction.write d ∈ hsActions chan → d = ctrlCmd := by
  intro chan
  induction chan with
  | nil => intro d hd; simp [hsActions] at hd
  | cons e rest ih =>
    intro d hd
    cases e with
    | err =>
      simp only [hsActions, List.mem_cons] at hd
      rcases hd with h | h | h
      · exact (DevAction.write.injEq d ctrlCmd).mp h
      · exact absurd h (by simp)
      · exact ih d h
    | ok r =>
      simp only [hsActions, List.mem_cons, List.mem_singleton] at hd
      rcases hd with h | h
      · exact (DevAction.write.injEq d ctrlCmd).mp h
      · simp at h

/-- C5 (amended): in the `Idle → ControlHandshake` transition the engine
performs a USB device reset (line 66) instead of sending any
`"FIN x0000000"` abort command; every byte string written during setup is
the control-mode command, the `PARAx` length header, or the parameter block
itself, and `"FIN x0000000"` is never written. -/
theorem C5_setup_reset_no_fin (col : ByteStr) (q res w h : Nat)
    (chan : List ReadEv) :
    (setupActions (buildParams col q res w h) chan).head? =
      some DevAction.reset ∧
    (∀ d, DevAction.write d ∈ setupActions (buildParams col q res w h) chan →
      d = ctrlCmd ∨
      d = strBytes "PARAx" ++ padHex 7 (buildParams col q res w h).length ∨
      d = buildParams col q res w h) ∧
    DevAction.write finCmd ∉ setupActions (buildParams col q res w h) chan := by
  have hwrites : ∀ d,
      DevAction.write d ∈ setupActions (buildParams col q res w h) chan →
      d = ctrlCmd ∨
      d = strBytes "PARAx" ++ padHex 7 (buildParams col q res w h).length ∨
      d = buildParams col q res w h := by
    intro d hd
    simp only [setupActions, List.mem_cons, List.mem_append] at hd
    rcases hd with (h | h) | h
    · exact absurd h (by simp)
    · exact Or.inl (hsActions_writes chan d h)
    · revert h
      cases handshake chan with
      | success a b =>
        intro h
        simp only [paramPhase, List.mem_cons, List.mem_singleton] at h
        rcases h with h | h | h
        · exact Or.inr (Or.inl ((DevAction.write.injEq _ _).mp h))
        · exact Or.inr (Or.inr ((DevAction.write.injEq _ _).mp h))
        · simp at h
      | rejected a b => intro h; simp [paramPhase] at h
      | exhausted => intro h; simp [paramPhase] at h
  have hbp : (buildParams col q res w h).head? = some 35 := by
    rw [buildParams,
      show strBytes "#ADF#COL" = 35 :: strBytes "ADF#COL" from by decide]
    simp
  have hpara :
      (strBytes "PARAx" ++ padHex 7 (buildParams col q res w h).length).head? =
        some 80 := by
    rw [show strBytes "PARAx" = 80 :: strBytes "ARAx" from by decide]
    simp
  refine ⟨by simp [setupActions], hwrites, ?_⟩
  intro hmem
  rcases hwrites finCmd hmem with h | h | h
  · exact absurd h (by decide)
  · have h70 : finCmd.head? = some 70 := by decide
    rw [h, hpara] at h70
    simp at h70
  · have h70 : finCmd.head? = some 70 := by decide
    rw [h, hbp] at h70
    simp at h70

theorem C5_setup_reset_no_fin_witness :
    DevAction.write finCmd ∉
      setupActions (buildParams (strBytes "C024") 100 300 2550 4200) [] :=
  (C5_setup_reset_no_fin (strBytes "C024") 100 300 2550 4200 []).2.2

/-! ## C7: the color-code table -/

/-- C7 is false of src/dsforty.py: the `CLRS` dictionary (line 23) has no
entry for a mono mode at all — looking up `'m'` fails — so no color mode
maps to `"M001"`. -/
theorem C7_counterexample : CLRS 'm' = none := by decide

/-- C7 (amended): the color code is a 4-byte token keyed by mode, with
gray (`'g'`) mapping to `"M008"` and color (`'c'`) mapping to `"C024"`;
this revision supports no mono mode — every other key is absent from
`CLRS`. -/
theorem C7_color_codes (ch : Char) (h1 : ch ≠ 'g') (h2 : ch ≠ 'c') :
    CLRS 'g' = some (strBytes "M008") ∧
    CLRS 'c' = some (strBytes "C024") ∧
    (strBytes "M008").length = 4 ∧
    (strBytes "C024").length = 4 ∧
    CLRS ch = none := by
  refine ⟨by decide, by decide, by decide, by decide, ?_⟩
  simp [CLRS, h1, h2]

theorem C7_color_codes_witness :
    CLRS 'g' = some (strBytes "M008") ∧
    CLRS 'c' = some (strBytes "C024") ∧
    (strBytes "M008").length = 4 ∧
    (strBytes "C024").length = 4 ∧
    CLRS 'm' = none :=
  C7_color_codes 'm' (by decide) (by decide)

/-! ## C6: quality is never range-validated -/

/-- The `arg_range` helper `main` defines (lines 148-156): reject values
outside `[low, high]`, accept the rest. -/
def arg_range (low high v : Int) : Option Int :=
  if v < low ∨ v > high then none else some v

/-- How `main` actually registers `--quality` (lines 176-181): plain
`type=int` with no validator, so every integer is accepted.  The
`arg_range` helper is defined but never applied to `--quality`. -/
def qualityArgValue (v : Int) : Option Int := some v

/-- C6 is false of src/dsforty.py: out-of-range qualities such as 101, 0 and
-5 are accepted by the command line (plain `type=int`), even though the
script's own `arg_range` helper — never applied — would reject them and the
help text documents `between 1..100`.  No validation happens before a scan
begins. -/
theorem C6_quality_not_validated :
    qualityArgValue 101 = some 101 ∧ qualityArgValue 0 = some 0 ∧
    qualityArgValue (-5) = some (-5) ∧
    arg_range 1 100 101 = none ∧ arg_range 1 100 0 = none ∧
    arg_range 1 100 (-5) = none ∧ arg_range 1 100 100 = some 100 ∧
    arg_range 1 100 1 = some 1 := by
  decide

/-! ## C9: the crop rectangle ignores the --no-crop flag -/

/-- The parsed command-line arguments (lines 162-198). -/
structure Args where
  res : Nat
  color : Char
  quality : Int
  no_crop : Bool
  filename : String
  continuous : Bool

/-- What `run_scan` hands to the image codec on success (lines 139-142):
the crop rectangle `(0, 0, self.width, final_height)` together with the raw
buffer.  `self.width = int(res * 8.5)` (line 38); `args.no_crop` is never
consulted anywhere in `run_scan`. -/
def scanOutput (a : Args) (chan : List ByteStr) :
    Option ((Nat × Nat × Nat × Nat) × ByteStr) :=
  match runScan chan with
  | ScanOutcome.finished buf h => some ((0, 0, widthOf a.res, h), buf)
  | _ => none

/-- C9: for every successful scan the crop rectangle is exactly
`(0, 0, int(res * 8.5), finalHeight)`, and the whole output is identical
whether or not the `--no-crop` flag was passed — the output does not depend
on the `no_crop` input. -/
theorem C9_crop_ignores_no_crop (a : Args) (b : Bool) (chan : List ByteStr) :
    scanOutput ⟨a.res, a.color, a.quality, b, a.filename, a.continuous⟩ chan =
      scanOutput a chan ∧
    (∀ buf h, runScan chan = ScanOutcome.finished buf h →
      scanOutput a chan = some ((0, 0, widthOf a.res, h), buf)) := by
  constructor
  · rfl
  · intro buf h hrun
    simp [scanOutput, hrun]

/-- A concrete argument record: 300 dpi, color, quality 100. -/
def argsEx : Args := ⟨300, 'c', 100, false, "scanimage_%04d.jpg", false⟩

theorem C9_crop_ignores_no_crop_witness :
    scanOutput argsEx chanEx = some ((0, 0, 2550, 1234), [171, 205]) :=
  (C9_crop_ignores_no_crop argsEx false chanEx).2 [171, 205] 1234 (by decide)

/-! ## C10: page numbering -/

/-- One-shot mode formats the filename with index 1 (line 44). -/
def oneShotIndex : Nat := 1

/-- The continuous-mode counter (lines 47-51): `i = 46`, then `i += 1`
before each scan.  `contCounter k` is the value of `i` when the k-th scan
starts (k ≥ 1). -/
def contCounter : Nat → Nat
  | 0 => 46
  | k + 1 => contCounter k + 1

/-- The index used to format the k-th scan's filename. -/
def scanIndex (continuous : Bool) (k : Nat) : Nat :=
  if continuous then contCounter k else oneShotIndex

lemma contCounter_eq : ∀ k, contCounter k = 46 + k := by
  intro k
  induction k with
  | zero => rfl
  | succ n ih => simp [contCounter, ih]; omega

/-- C10: in one-shot mode every filename is formatted with index 1, while
in continuous mode the counter starts at 46 and is incremented before each
scan, so the first page is saved under index 47 and the (k+1)-th page under
47 + k. -/
theorem C10_page_numbering (k : Nat) :
    scanIndex false (k + 1) = 1 ∧
    scanIndex true 1 = 47 ∧
    scanIndex true (k + 1) = 47 + k := by
  refine ⟨rfl, rfl, ?_⟩
  simp [scanIndex, contCounter_eq]
  omega

/-! ## C8: the Edge Detector (spec §4.3)

The autocrop edge detector exists only in other revisions of this
repository, not in src/dsforty.py, so it is modelled from the
specification. -/

/-- A pixel is its list of channel values (each in 0..255). -/
abbrev Pixel := List Nat

/-- Modelled from the spec: a pixel is non-blank iff some channel deviates
from the blank reference by more than `tolerance`.  (The spec's clamping of
the blank band to [0,255] cannot change the classification of byte-valued
channels, so the symmetric distance suffices.)  Missing from src/: the Edge
Detector of spec §4.3 appears only in other revisions of the repository. -/
def pixelNonBlank (ref : Pixel) (tol : Nat) (px : Pixel) : Bool :=
  (px.zip ref).any fun pr =>
    decide (tol < Nat.max pr.1 pr.2 - Nat.min pr.1 pr.2)

/-- Modelled from the spec: left-to-right scan keeping a run counter of
consecutive non-blank pixels; once the run exceeds `minRun`, return the
column where it started (`currentIndex - runLength + 1`).  Missing from
src/: the Edge Detector of spec §4.3. -/
def detectAux (ref : Pixel) (tol minRun : Nat) :
    List Pixel → Nat → Nat → Option Nat
  | [], _, _ => none
  | px :: rest, idx, run =>
    if pixelNonBlank ref tol px then
      (if minRun < run + 1 then some (idx + 1 - (run + 1))
       else detectAux ref tol minRun rest (idx + 1) (run + 1))
    else detectAux ref tol minRun rest (idx + 1) 0

/-- Modelled from the spec: `detect` returns the found column, or 0 when no
run of non-blank pixels longer than `minRun` exists.  Missing from src/:
the Edge Detector of spec §4.3. -/
def detect (line : List Pixel) (ref : Pixel) (tol minRun : Nat) : Nat :=
  (detectAux ref tol minRun line 0 0).getD 0

lemma detectAux_blank_skip (ref : Pixel) (tol minRun : Nat) :
    ∀ (bs l2 : List Pixel) (idx : Nat),
      (∀ p ∈ bs, pixelNonBlank ref tol p = false) →
      detectAux ref tol minRun (bs ++ l2) idx 0 =
        detectAux ref tol minRun l2 (idx + bs.length) 0 := by
  intro bs
  induction bs with
  | nil => intro l2 idx _; simp
  | cons p bs ih =>
    intro l2 idx h
    have hp : pixelNonBlank ref tol p = false := h p (by simp)
    simp only [List.cons_append, detectAux, hp, Bool.false_eq_true, if_false,
      List.append_eq]
    rw [ih l2 (idx + 1) (fun x hx => h x (by simp [hx]))]
    congr 1
    simp
    omega

lemma detectAux_blank_none (ref : Pixel) (tol minRun : Nat)
    (l : List Pixel) (idx : Nat)
    (h : ∀ p ∈ l, pixelNonBlank ref tol p = false) :
    detectAux ref tol minRun l idx 0 = none := by
  have := detectAux_blank_skip ref tol minRun l [] idx h
  simpa [detectAux] using this

lemma detectAux_nonblank_run (ref : Pixel) (tol minRun : Nat) :
    ∀ (nb rest : List Pixel) (idx run : Nat),
      (∀ p ∈ nb, pixelNonBlank ref tol p = true) →
      run ≤ minRun → run ≤ idx → minRun < run + nb.length →
      detectAux ref tol minRun (nb ++ rest) idx run = some (idx - run) := by
  intro nb
  induction nb with
  | nil =>
    intro rest idx run _ h1 _ h3
    simp at h3
    omega
  | cons p nb ih =>
    intro rest idx run h h1 h2 h3
    have hp : pixelNonBlank ref tol p = true := h p (by simp)
    simp only [List.cons_append, detectAux, hp, if_true]
    by_cases htr : minRun < run + 1
    · simp only [htr, if_true]
      congr 1
      omega
    · simp only [htr, if_false, List.append_eq]
      rw [ih rest (idx + 1) (run + 1) (fun x hx => h x (by simp [hx]))
        (by omega) (by omega) (by simp at h3 ⊢; omega)]
      congr 1
      omega

/-- C8 (spec-modelled): the edge detector returns 0 for a line of N uniform
blank pixels, scanned forward or reversed; and for a line blank for its
first `bs.length` pixels and then non-blank for a run longer than `minRun`,
it returns exactly the length of the blank part. -/
theorem C8_edge_detector (ref px : Pixel) (tol minRun N : Nat)
    (bs nb rest : List Pixel)
    (hpx : pixelNonBlank ref tol px = false)
    (hbs : ∀ p ∈ bs, pixelNonBlank ref tol p = false)
    (hnb : ∀ p ∈ nb, pixelNonBlank ref tol p = true)
    (hlen : minRun < nb.length) :
    (detect (List.replicate N px) ref tol minRun = 0 ∧
     detect (List.replicate N px).reverse ref tol minRun = 0) ∧
    detect (bs ++ nb ++ rest) ref tol minRun = bs.length := by
  have hrepl : ∀ p ∈ List.replicate N px, pixelNonBlank ref tol p = false := by
    intro p hp
    rw [List.eq_of_mem_replicate hp]
    exact hpx
  refine ⟨⟨?_, ?_⟩, ?_⟩
  · simp [detect, detectAux_blank_none ref tol minRun _ 0 hrepl]
  · rw [List.reverse_replicate]
    simp [detect, detectAux_blank_none ref tol minRun _ 0 hrepl]
  · unfold detect
    rw [List.append_assoc, detectAux_blank_skip ref tol minRun bs (nb ++ rest) 0 hbs,
      detectAux_nonblank_run ref tol minRun nb rest (0 + bs.length) 0 hnb
        (by omega) (by omega) (by omega)]
    simp

theorem C8_edge_detector_witness :
    (detect (List.replicate 4 [200]) [200] 10 2 = 0 ∧
     detect (List.replicate 4 [200]).reverse [200] 10 2 = 0) ∧
    detect ([[195], [205]] ++ [[0], [0], [0]] ++ [[200]]) [200] 10 2 = 2 :=
  C8_edge_detector [200] [200] 10 2 4 [[195], [205]] [[0], [0], [0]] [[200]]
    (by decide) (by decide) (by decide) (by decide)
